import Mathlib

noncomputable section

/-
Shallow embedding of the retinotopic-map simulator in
src/project_version_8.py, together with theorems settling the frozen
claims about it.  Real-valued numpy arrays are modelled as total
functions into ℝ; matrices of shape (T, R) as functions ℕ → ℕ → ℝ read
at in-bounds indices; random draws (np.random.randint, np.random.choice)
appear as explicit parameters constrained by hypotheses that mirror the
branch structure of the source.
-/

/-- Source function `convergence(mean_new_H_grid, mean_H_grid)`:
`np.abs((mean_new_H_grid - mean_H_grid)) < (0.005 * mean_H_grid)`.
Note the right-hand side carries the sign of `mean_H_grid`. -/
def convergence (mean_new_H_grid mean_H_grid : ℝ) : Prop :=
  |mean_new_H_grid - mean_H_grid| < 0.005 * mean_H_grid

/-- Source function `configure_retinal_polarity_markers(XR, YR,
default_polarity_markers)`.  In the random branch the first marker has
coordinates `(R_PM_y1, R_PM_x1)` drawn by `np.random.randint(YR-1)` and
`np.random.randint(XR-1)`; here they are the explicit parameters
`ry, rx`.  The source then sets `R_PM_y3 = R_PM_y1 - 1` and
`R_PM_y4 = R_PM_y2 - 1` (the row above, despite the comment saying the
markers lie directly below), so the linear indices are computed in ℤ:
`R_PMk = R_PM_yk * XR + R_PM_xk`. -/
def configure_retinal_polarity_markers (XR YR : ℕ)
    (default_polarity_markers : Bool) (ry rx : ℕ) : ℤ × ℤ × ℤ × ℤ :=
  if default_polarity_markers then
    (0 * XR + 0, 0 * XR + 1, 1 * XR + 0, 1 * XR + 1)
  else
    ((ry : ℤ) * XR + rx, (ry : ℤ) * XR + (rx + 1),
     ((ry : ℤ) - 1) * XR + rx, ((ry : ℤ) - 1) * XR + (rx + 1))

/-- Source function `retinal_neuron_sweep(XR, YR, loop_count)`:
`sweep_num = loop_count % (YR + XR)`; when `sweep_num < YR` it fills
`retinal_neurons[i] = i * XR + sweep_num` for `i < YR` (a "column"),
otherwise `retinal_neurons[i] = (sweep_num - XR) * XR + i` for
`i < XR` (a "row").  Values live in ℤ because `sweep_num - XR` can be
negative in the source when `YR < XR`. -/
def retinal_neuron_sweep (XR YR loop_count : ℕ) : List ℤ :=
  let sweep_num := loop_count % (YR + XR)
  if sweep_num < YR then
    (List.range YR).map fun i => (i : ℤ) * XR + sweep_num
  else
    (List.range XR).map fun i => ((sweep_num : ℤ) - XR) * XR + i

/-- Source dispatcher `activate_retinal_neurons(activity_pattern, XR, YR,
loop_count)`: an if/elif chain over the eight recognized policy names
with no final else, so an unrecognized name yields the implicit Python
`None`, modelled as `none`.  The (randomness-dependent) result of each
policy generator appears as an opaque parameter. -/
def activate_retinal_neurons {α : Type} (activity_pattern : String)
    (pairsR squaresR sweepR twoPairsR singlesR strobeR twoSinglesR occR : α) :
    Option α :=
  if activity_pattern = "pairs" then some pairsR
  else if activity_pattern = "squares" then some squaresR
  else if activity_pattern = "sweep" then some sweepR
  else if activity_pattern = "2_pairs" then some twoPairsR
  else if activity_pattern = "singles" then some singlesR
  else if activity_pattern = "strobe" then some strobeR
  else if activity_pattern = "2_singles" then some twoSinglesR
  else if activity_pattern = "occular_dominance" then some occR
  else none

/-- Source dispatcher `implement_polarity_markers(PM_type, s, ...)`:
returns the result of `square_polarity_markers` when `PM_type ==
"square"`, of `graded_polarity_markers` when `PM_type == "graded"`, and
falls off the end (Python `None`) otherwise. -/
def implement_polarity_markers {α : Type} (PM_type : String)
    (squareR gradedR : α) : Option α :=
  if PM_type = "square" then some squareR
  else if PM_type = "graded" then some gradedR
  else none

/-- Model of `np.linspace(start, stop, num)` at index `k`: `num` evenly
spaced samples from `start` to `stop` inclusive (a single sample equals
`start`). -/
def np_linspace (start stop : ℝ) (num : ℕ) (k : ℕ) : ℝ :=
  if num = 1 then start else start + (stop - start) * k / ((num : ℝ) - 1)

/-- The ideal x coordinates of the `quality` source function:
`perfect_x = np.tile(np.linspace(0, XR-1, num=XT), YT)`, so index `i`
reads sample `i % XT`. -/
def perfect_x (XT XR : ℕ) (i : ℕ) : ℝ :=
  np_linspace 0 ((XR : ℝ) - 1) XT (i % XT)

/-- The ideal y coordinates of the `quality` source function:
`perfect_y = np.repeat(np.linspace(0, YR-1, num=YT), XT)`, so index `i`
reads sample `i / XT`. -/
def perfect_y (XT YT YR : ℕ) (i : ℕ) : ℝ :=
  np_linspace 0 ((YR : ℝ) - 1) YT (i / XT)

/-- Source function `quality(XT, YT, XR, YR, COM_X, COM_Y)`: for each
tectal neuron `i < XT*YT` it accumulates the Euclidean displacement
between `(COM_X[i], COM_Y[i])` and the ideal coordinates, divided by
`max_disp = math.sqrt(XR+YR)`; the accumulator is then divided by
`XT*YT` and the result is `1 - q`. -/
def quality (XT YT XR YR : ℕ) (COM_X COM_Y : ℕ → ℝ) : ℝ :=
  1 - (∑ i ∈ Finset.range (XT * YT),
        Real.sqrt ((COM_X i - perfect_x XT XR i) * (COM_X i - perfect_x XT XR i)
            + (COM_Y i - perfect_y XT YT YR i) * (COM_Y i - perfect_y XT YT YR i))
          / Real.sqrt ((XR : ℝ) + (YR : ℝ))) / ((XT * YT : ℕ) : ℝ)

/-- Source function `threshold(H_grid, theta, XT, YT)` applied at one
grid cell: values strictly above `theta` are shifted down by `theta`,
all others become 0.  The source loops this assignment over every
`(j, i)` with `j < YT`, `i < XT`; cells of the grid are read here
through a total function so the loop is the pointwise map. -/
def threshold (H_grid : ℕ → ℕ → ℝ) (theta : ℝ) : ℕ → ℕ → ℝ :=
  fun j i => if H_grid j i > theta then H_grid j i - theta else 0

/-- Source function `update_synaptic_weightings(new_H_grid, theta, XT, YT,
retinal_neurons, h, s, epsilon)`: thresholds `new_H_grid`, flattens it
row-major (`lin_new_H_star[y] = new_H_star[y // XT, y % XT]`), and for
every tectal row `y` whose thresholded activity strictly exceeds
`epsilon` performs `s[y, x] += h * lin_new_H_star[y]` for each `x` in
`retinal_neurons` (in order, one increment per list entry). -/
def update_synaptic_weightings (new_H_grid : ℕ → ℕ → ℝ) (theta : ℝ)
    (XT YT : ℕ) (retinal_neurons : List ℕ) (h : ℝ) (s : ℕ → ℕ → ℝ)
    (epsilon : ℝ) : ℕ → ℕ → ℝ :=
  fun y =>
    if threshold new_H_grid theta (y / XT) (y % XT) > epsilon then
      retinal_neurons.foldl
        (fun row x => fun x' => if x' = x
          then row x' + h * threshold new_H_grid theta (y / XT) (y % XT)
          else row x') (s y)
    else s y

/-- The raw `dist` of `graded_polarity_markers(s, XT, YT, XR, YR)` at
entry `(j, i)` of `s`: the normalised retinal coordinates are
`a = (i // XR) / YR`, `b = (i % XR) / XR`, the tectal ones
`c = (j // XT) / YT`, `d = (j % XT) / XT`, and `dist` is the Euclidean
distance `sqrt((a-c)^2 + (b-d)^2)` before the normalisation step.  The
source loops over `i < XR*YR`, `j < XT*YT`; entries outside those
ranges are untouched. -/
def graded_dist (XT YT XR YR j i : ℕ) : ℝ :=
  Real.sqrt
    ((((i / XR : ℕ) : ℝ) / (YR : ℝ) - ((j / XT : ℕ) : ℝ) / (YT : ℝ))
        * (((i / XR : ℕ) : ℝ) / (YR : ℝ) - ((j / XT : ℕ) : ℝ) / (YT : ℝ))
      + (((i % XR : ℕ) : ℝ) / (XR : ℝ) - ((j % XT : ℕ) : ℝ) / (XT : ℝ))
        * (((i % XR : ℕ) : ℝ) / (XR : ℝ) - ((j % XT : ℕ) : ℝ) / (XT : ℝ)))

/-- Continuation of `graded_polarity_markers`: the source then executes
`dist = dist / INV_SQRT_2` with `INV_SQRT_2 = 1.0 / math.sqrt(2)` — a
division by 1/sqrt(2), i.e. a multiplication by sqrt(2) — and rescales
entries whose resulting `dist` is below 0.5 by `-8*dist + 5`. -/
def graded_polarity_markers (s : ℕ → ℕ → ℝ) (XT YT XR YR : ℕ) : ℕ → ℕ → ℝ :=
  fun j i =>
    if j < XT * YT ∧ i < XR * YR then
      if graded_dist XT YT XR YR j i / (1 / Real.sqrt 2) < 0.5 then
        (-8 * (graded_dist XT YT XR YR j i / (1 / Real.sqrt 2)) + 5) * s j i
      else s j i
    else s j i

/-- Modelled from the spec for comparison with the source: identical to
`graded_polarity_markers` except that the raw Euclidean distance is
divided by sqrt(2) (normalised by the maximum possible separation), as
both the spec and the comments of the source itself describe. -/
def graded_polarity_markers_spec (s : ℕ → ℕ → ℝ) (XT YT XR YR : ℕ) :
    ℕ → ℕ → ℝ :=
  fun j i =>
    if j < XT * YT ∧ i < XR * YR then
      if graded_dist XT YT XR YR j i / Real.sqrt 2 < 0.5 then
        (-8 * (graded_dist XT YT XR YR j i / Real.sqrt 2) + 5) * s j i
      else s j i
    else s j i

/-- Branch structure of the second-neuron selection shared by
`retinal_neuron_pairs` and both pairs of `retinal_neuron_2_pairs`:
given the first neuron at `(y1, x1)`, `y2` is drawn from the in-bounds
subset of `{y1-1, y1, y1+1}` (`np.random.choice`), and `x2` is then
forced adjacent horizontally when `y2 == y1` and equal to `x1`
otherwise.  Any draw the source can make satisfies this predicate. -/
def adjacent_draw (XR YR y1 x1 y2 x2 : ℕ) : Prop :=
  (if y1 = 0 then y2 = y1 ∨ y2 = y1 + 1
   else if y1 = YR - 1 then y2 = y1 ∨ y2 = y1 - 1
   else y2 = y1 - 1 ∨ y2 = y1 ∨ y2 = y1 + 1) ∧
  (if y2 = y1 then
     (if x1 = 0 then x2 = x1 + 1
      else if x1 = XR - 1 then x2 = x1 - 1
      else x2 = x1 - 1 ∨ x2 = x1 + 1)
   else x2 = x1)

instance (XR YR y1 x1 y2 x2 : ℕ) : Decidable (adjacent_draw XR YR y1 x1 y2 x2) := by
  unfold adjacent_draw
  infer_instance

/-- Source function `retinal_neuron_pairs(XR, YR)` after the draw
`(y1, x1, y2, x2)`: returns `[RN1, RN2]` with `RNk = yk * XR + xk`. -/
def retinal_neuron_pairs (XR y1 x1 y2 x2 : ℕ) : List ℕ :=
  [y1 * XR + x1, y2 * XR + x2]

/-- Branch structure of the draws of `retinal_neuron_squares(XR, YR)`:
`y2` is the in-bounds vertical neighbour of `y1` (a choice only away
from the edges), `x3` the in-bounds horizontal neighbour of `x1`; the
source further sets `x2 = x1`, `y3 = y1`, `y4 = y2`, `x4 = x3`. -/
def squares_draw (XR YR y1 x1 y2 x3 : ℕ) : Prop :=
  (if y1 = 0 then y2 = 1
   else if y1 = YR - 1 then y2 = YR - 2
   else y2 = y1 - 1 ∨ y2 = y1 + 1) ∧
  (if x1 = 0 then x3 = 1
   else if x1 = XR - 1 then x3 = XR - 2
   else x3 = x1 - 1 ∨ x3 = x1 + 1)

instance (XR YR y1 x1 y2 x3 : ℕ) : Decidable (squares_draw XR YR y1 x1 y2 x3) := by
  unfold squares_draw
  infer_instance

/-- Source function `retinal_neuron_squares(XR, YR)` after the draw:
returns `[RN1, RN2, RN3, RN4]` at coordinates `(y1,x1)`, `(y2,x1)`,
`(y1,x3)`, `(y2,x3)`. -/
def retinal_neuron_squares (XR y1 x1 y2 x3 : ℕ) : List ℕ :=
  [y1 * XR + x1, y2 * XR + x1, y1 * XR + x3, y2 * XR + x3]

/-- Source function `retinal_neuron_2_pairs(XR, YR)` after its draws:
returns `[RN1, RN2, RN3, RN4]` with `RNk = yk * XR + xk`; the while
loops of the source additionally guarantee that `RN3` and `RN4` differ
from both `RN1` and `RN2` on exit. -/
def retinal_neuron_2_pairs (XR y1 x1 y2 x2 y3 x3 y4 x4 : ℕ) : List ℕ :=
  [y1 * XR + x1, y2 * XR + x2, y3 * XR + x3, y4 * XR + x4]

/-- The 7x7 `tectal_modifiers` kernel literal of `tectal_interactions`:
coefficient by Manhattan distance from the centre, `beta` at distance 1,
`gamma` at 2, `delta` at 3, and 0 elsewhere (centre included). -/
def tectal_modifiers (beta gamma delta : ℝ) : List (List ℝ) :=
  [[0, 0, 0, delta, 0, 0, 0],
   [0, 0, delta, gamma, delta, 0, 0],
   [0, delta, gamma, beta, gamma, delta, 0],
   [delta, gamma, beta, 0, beta, gamma, delta],
   [0, delta, gamma, beta, gamma, delta, 0],
   [0, 0, delta, gamma, delta, 0, 0],
   [0, 0, 0, delta, 0, 0, 0]]

/-- Reads a kernel entry at (possibly out-of-range) position `(a, b)`,
0 outside the kernel. -/
def kernel_at (K : List (List ℝ)) (a b : ℤ) : ℝ :=
  if 0 ≤ a ∧ 0 ≤ b then (K.getD a.toNat []).getD b.toNat 0 else 0

/-- Model of `sp.signal.convolve2d(H, K, mode="same", boundary="fill",
fillvalue=0)` for a `YH x XH` grid `H` and the 7x7 kernel `K`:
`out[r, c] = sum_(i,j) H[i, j] * K[r - i + 3, c - j + 3]`, cells outside
the grid contributing 0. -/
def convolve2d_same (H : ℕ → ℕ → ℝ) (YH XH : ℕ) (K : List (List ℝ)) :
    ℕ → ℕ → ℝ :=
  fun r c => ∑ i ∈ Finset.range YH, ∑ j ∈ Finset.range XH,
    H i j * kernel_at K ((r : ℤ) - (i : ℤ) + 3) ((c : ℤ) - (j : ℤ) + 3)

/-- One pass of the `while not converged` body of `tectal_interactions`:
`H_star = threshold(H_grid, theta)`, `dH_dt = H_grid_initial +
convolve2d(H_star, tectal_modifiers) + alpha * H_grid`, and
`H_grid := H_grid + dH_dt * dt`. -/
def tectal_step (H_grid_initial : ℕ → ℕ → ℝ) (XT YT : ℕ)
    (dt beta gamma delta alpha theta : ℝ) (H_grid : ℕ → ℕ → ℝ) :
    ℕ → ℕ → ℝ :=
  fun r c =>
    H_grid r c +
      (H_grid_initial r c
        + convolve2d_same (threshold H_grid theta) YT XT
            (tectal_modifiers beta gamma delta) r c
        + alpha * H_grid r c) * dt

/-- The grid after `n` passes of the relaxation body, starting from
`H_grid = H_grid_initial.copy()`. -/
def relax_iter (H_grid_initial : ℕ → ℕ → ℝ) (XT YT : ℕ)
    (dt beta gamma delta alpha theta : ℝ) : ℕ → (ℕ → ℕ → ℝ)
  | 0 => H_grid_initial
  | n + 1 => tectal_step H_grid_initial XT YT dt beta gamma delta alpha theta
      (relax_iter H_grid_initial XT YT dt beta gamma delta alpha theta n)

/-- Mean (`np.mean`) of a `YT x XT` grid. -/
def grid_mean (H : ℕ → ℕ → ℝ) (YT XT : ℕ) : ℝ :=
  (∑ r ∈ Finset.range YT, ∑ c ∈ Finset.range XT, H r c) / ((YT * XT : ℕ) : ℝ)

/-- The `converged` flag computed at iteration `n` of the relaxation
loop: `mean_H_grid` is the mean before the pass, `mean_new_H_grid` the
mean after it, compared by `convergence`.  With `verbose=False` this
test is the only exit condition of the loop, so the loop reaches
iteration `n+1` exactly when the flag was false at every iteration up to
`n`. -/
def relax_converged_at (H_grid_initial : ℕ → ℕ → ℝ) (XT YT : ℕ)
    (dt beta gamma delta alpha theta : ℝ) (n : ℕ) : Prop :=
  convergence
    (grid_mean (relax_iter H_grid_initial XT YT dt beta gamma delta alpha theta
      (n + 1)) YT XT)
    (grid_mean (relax_iter H_grid_initial XT YT dt beta gamma delta alpha theta
      n) YT XT)

/-- The relaxation loop of `tectal_interactions` never takes its sole
exit: the convergence flag is false at every iteration, so no number of
iterations produces a result (nor any failure). -/
def relax_never_converges (H_grid_initial : ℕ → ℕ → ℝ) (XT YT : ℕ)
    (dt beta gamma delta alpha theta : ℝ) : Prop :=
  ∀ n : ℕ,
    ¬ relax_converged_at H_grid_initial XT YT dt beta gamma delta alpha theta n

/-- Claim C1 (corrected): the convergence test is not symmetric in the
sign of the mean.  The source compares `|Δ|` against `0.005 *
mean_H_grid` without taking the absolute value of the right-hand side,
so a grid whose mean is negative (here both means are -1, so Δ = 0)
fails the test of the code even though the claimed criterion
`|Δ| < 0.005 * |mean_before|` is satisfied. -/
theorem C1_counterexample :
    ¬ convergence (-1) (-1) ∧ |(-1 : ℝ) - (-1)| < 0.005 * |(-1 : ℝ)| := by
  constructor
  · simp only [convergence]
    norm_num
  · norm_num

/-- Claim C1, amended: the relaxation convergence test reports Converged
exactly when the mean before the step is strictly positive and
`|m_after - m_before| < 0.005 * |m_before|`; in particular the criterion
is not symmetric in sign, and a grid whose mean is non-positive never
satisfies it. -/
theorem C1_convergence_signed (mean_new_H_grid mean_H_grid : ℝ) :
    convergence mean_new_H_grid mean_H_grid ↔
      0 < mean_H_grid ∧
        |mean_new_H_grid - mean_H_grid| < 0.005 * |mean_H_grid| := by
  unfold convergence
  constructor
  · intro hlt
    have habs : (0 : ℝ) ≤ |mean_new_H_grid - mean_H_grid| := abs_nonneg _
    have hpos : 0 < mean_H_grid := by nlinarith
    exact ⟨hpos, by rwa [abs_of_pos hpos]⟩
  · rintro ⟨hpos, hlt⟩
    rwa [abs_of_pos hpos] at hlt

/-- Claim C5 (code_bug): in random-anchor mode on a 3x3 retinal sheet,
the draw `(ry, rx) = (0, 0)` is inside the `np.random.randint(YR-1)`,
`np.random.randint(XR-1)` ranges, yet the third and fourth retinal
polarity-marker indices come out as -3 and -2: the source places markers
3 and 4 at row `ry - 1` (the comment says "directly below", i.e. row
`ry + 1`), so the four indices do not form an in-bounds 2x2 block. -/
theorem C5_random_anchor_negative_index :
    (0 < 3 - 1 ∧ 0 < 3 - 1) ∧
      configure_retinal_polarity_markers 3 3 false 0 0 = (0, 1, -3, -2) ∧
      ¬ (0 ≤ (-3 : ℤ)) := by
  refine ⟨by decide, ?_, by decide⟩
  decide

/-- Claim C6 (code_bug): on a non-square sheet (`XR = 2`, `YR = 3`) at
`loop_count = 2` the source takes the column branch because it tests
`sweep_num < YR` (instead of `sweep_num < XR`), producing the linear
indices `[2, 4, 6]` of a nonexistent third column; index 6 is outside
the `XR*YR = 6`-neuron sheet.  The claim (sweeping the XR columns first,
then the YR rows) would select row `2 - XR = 0`, indices `[0, 1]`. -/
theorem C6_sweep_out_of_range :
    retinal_neuron_sweep 2 3 2 = [2, 4, 6] ∧
      ¬ ((6 : ℤ) < 2 * 3) ∧ retinal_neuron_sweep 2 3 2 ≠ [0, 1] := by
  refine ⟨by decide, by decide, by decide⟩

/-- Claim C8 (corrected): neither dispatcher fails fast on an invalid
configuration string; both fall off the end of their if/elif chains and
return the Python `None` (modelled `none`) in place of an activation set
or a synapse matrix. -/
theorem C8_counterexample :
    activate_retinal_neurons "gliders" (0 : ℕ) 0 0 0 0 0 0 0 = none ∧
      implement_polarity_markers "striped" (0 : ℕ) 0 = none := by
  exact ⟨rfl, rfl⟩

/-- Claim C8, amended: an activation-policy name outside the eight
recognized policies, or a polarity-marker kind other than
square/graded, makes the corresponding dispatcher fall through and
return an absent value (`None`), with no explicit failure raised before
simulation work. -/
theorem C8_dispatchers_fall_through {α β : Type} (activity_pattern PM_type : String)
    (pairsR squaresR sweepR twoPairsR singlesR strobeR twoSinglesR occR : α)
    (squareR gradedR : β)
    (hpat : activity_pattern ∉ (["pairs", "squares", "sweep", "2_pairs",
      "singles", "strobe", "2_singles", "occular_dominance"] : List String))
    (hkind : PM_type ∉ (["square", "graded"] : List String)) :
    activate_retinal_neurons activity_pattern pairsR squaresR sweepR twoPairsR
        singlesR strobeR twoSinglesR occR = none ∧
      implement_polarity_markers PM_type squareR gradedR = none := by
  simp only [List.mem_cons, List.not_mem_nil, or_false, not_or] at hpat hkind
  obtain ⟨h1, h2, h3, h4, h5, h6, h7, h8⟩ := hpat
  obtain ⟨k1, k2⟩ := hkind
  constructor
  · simp only [activate_retinal_neurons, if_neg h1, if_neg h2, if_neg h3,
      if_neg h4, if_neg h5, if_neg h6, if_neg h7, if_neg h8]
  · simp only [implement_polarity_markers, if_neg k1, if_neg k2]

/-- Witness for C8: the dispatchers return `none` at the concrete
unrecognized strings "flurb" and "dotted". -/
theorem C8_dispatchers_fall_through_witness :
    ("flurb" ∉ (["pairs", "squares", "sweep", "2_pairs", "singles", "strobe",
        "2_singles", "occular_dominance"] : List String)) ∧
      activate_retinal_neurons "flurb" (1 : ℕ) 2 3 4 5 6 7 8 = none ∧
      implement_polarity_markers "dotted" (1 : ℕ) 2 = none := by
  refine ⟨by decide, ?_, ?_⟩
  · exact (C8_dispatchers_fall_through "flurb" "dotted" 1 2 3 4 5 6 7 8 1 2
      (by decide) (by decide)).1
  · exact (C8_dispatchers_fall_through "flurb" "dotted" (1 : ℕ) 2 3 4 5 6 7 8
      (1 : ℕ) 2 (by decide) (by decide)).2

/-- Helper: a retinal index not occurring in the activation list is
untouched by the inner `for x in retinal_neurons` loop. -/
lemma foldl_row_update_not_mem (l : List ℕ) (v : ℕ → ℝ) (inc : ℝ) (x : ℕ)
    (hx : x ∉ l) :
    l.foldl (fun row z => fun x' => if x' = z then row x' + inc else row x') v x
      = v x := by
  induction l generalizing v with
  | nil => rfl
  | cons a t ih =>
      have hxa : x ≠ a := fun hcontra => hx (by simp [hcontra])
      have hxt : x ∉ t := fun hcontra => hx (by simp [hcontra])
      simp only [List.foldl_cons]
      rw [ih _ hxt]
      simp [hxa]

/-- Helper: a retinal index occurring exactly once in the activation
list receives exactly one increment from the inner loop. -/
lemma foldl_row_update_mem (l : List ℕ) (v : ℕ → ℝ) (inc : ℝ) (x : ℕ)
    (hnd : l.Nodup) (hx : x ∈ l) :
    l.foldl (fun row z => fun x' => if x' = z then row x' + inc else row x') v x
      = v x + inc := by
  induction l generalizing v with
  | nil => simp at hx
  | cons a t ih =>
      simp only [List.foldl_cons]
      rcases List.mem_cons.mp hx with hxa | hxt
      · have hxt : x ∉ t := by
          subst hxa
          exact (List.nodup_cons.mp hnd).1
        rw [foldl_row_update_not_mem t _ inc x hxt]
        simp [hxa]
      · have hxa : x ≠ a := by
          intro hcontra
          subst hcontra
          exact (List.nodup_cons.mp hnd).1 hxt
        rw [ih _ (List.nodup_cons.mp hnd).2 hxt]
        simp [hxa]

/-- Claim C4 (confirmed): the plasticity update adds exactly
`h * thresholded activity of tectal neuron t` to `S[t, r]` for each
retinal index `r` in the activation set whenever that thresholded
activity strictly exceeds `epsilon`, and leaves every other entry
unchanged: entries whose retinal index is outside the activation set,
and whole rows whose thresholded activity is at or below `epsilon`. -/
theorem C4_update_frame (new_H_grid : ℕ → ℕ → ℝ) (theta : ℝ) (XT YT : ℕ)
    (retinal_neurons : List ℕ) (h : ℝ) (s : ℕ → ℕ → ℝ) (epsilon : ℝ)
    (hnd : retinal_neurons.Nodup) (t r : ℕ) :
    (r ∈ retinal_neurons →
        threshold new_H_grid theta (t / XT) (t % XT) > epsilon →
        update_synaptic_weightings new_H_grid theta XT YT retinal_neurons h s
            epsilon t r
          = s t r + h * threshold new_H_grid theta (t / XT) (t % XT)) ∧
    (r ∉ retinal_neurons →
        update_synaptic_weightings new_H_grid theta XT YT retinal_neurons h s
            epsilon t r = s t r) ∧
    (threshold new_H_grid theta (t / XT) (t % XT) ≤ epsilon →
        update_synaptic_weightings new_H_grid theta XT YT retinal_neurons h s
            epsilon t r = s t r) := by
  refine ⟨?_, ?_, ?_⟩
  · intro hmem hact
    unfold update_synaptic_weightings
    rw [if_pos hact]
    exact foldl_row_update_mem retinal_neurons (s t) _ r hnd hmem
  · intro hmem
    unfold update_synaptic_weightings
    by_cases hact : threshold new_H_grid theta (t / XT) (t % XT) > epsilon
    · rw [if_pos hact]
      exact foldl_row_update_not_mem retinal_neurons (s t) _ r hmem
    · rw [if_neg hact]
  · intro hle
    unfold update_synaptic_weightings
    rw [if_neg (not_lt.mpr hle)]

/-- Witness for C4: a concrete instance with activation set `[0]`,
constant converged activity 3, `theta = 1`, `epsilon = 1`, `h = 2`,
zero initial synapse matrix: entry `(0, 0)` receives one increment. -/
theorem C4_update_frame_witness :
    ([0] : List ℕ).Nodup ∧ (0 ∈ ([0] : List ℕ)) ∧
      update_synaptic_weightings (fun _ _ => 3) 1 1 1 [0] 2 (fun _ _ => 0) 1 0 0
        = (fun _ _ => (0 : ℝ)) 0 0
          + 2 * threshold (fun _ _ => 3) 1 (0 / 1) (0 % 1) := by
  refine ⟨by decide, by decide, ?_⟩
  exact (C4_update_frame (fun _ _ => 3) 1 1 1 [0] 2 (fun _ _ => 0) 1
    (by decide) 0 0).1 (by decide) (by norm_num [threshold])

/-- Claim C9 (confirmed): feeding `quality` the exact ideal linear
mapping (the tiled/repeated linspace coordinates the function itself
constructs) yields exactly 1, for every geometry. -/
theorem C9_quality_of_ideal (XT YT XR YR : ℕ) :
    quality XT YT XR YR (perfect_x XT XR) (perfect_y XT YT YR) = 1 := by
  unfold quality
  rw [Finset.sum_eq_zero]
  · simp
  · intro i _
    simp

/-- Claim C10 (confirmed): `quality` never exceeds 1: every accumulated
term is a non-negative displacement divided by non-negative quantities,
so the value subtracted from 1 is non-negative. -/
theorem C10_quality_le_one (XT YT XR YR : ℕ) (COM_X COM_Y : ℕ → ℝ) :
    quality XT YT XR YR COM_X COM_Y ≤ 1 := by
  unfold quality
  have hsum : (0 : ℝ) ≤ ∑ i ∈ Finset.range (XT * YT),
      Real.sqrt ((COM_X i - perfect_x XT XR i) * (COM_X i - perfect_x XT XR i)
          + (COM_Y i - perfect_y XT YT YR i) * (COM_Y i - perfect_y XT YT YR i))
        / Real.sqrt ((XR : ℝ) + (YR : ℝ)) := by
    refine Finset.sum_nonneg fun i _ => ?_
    exact div_nonneg (Real.sqrt_nonneg _) (Real.sqrt_nonneg _)
  have hq : (0 : ℝ) ≤ (∑ i ∈ Finset.range (XT * YT),
      Real.sqrt ((COM_X i - perfect_x XT XR i) * (COM_X i - perfect_x XT XR i)
          + (COM_Y i - perfect_y XT YT YR i) * (COM_Y i - perfect_y XT YT YR i))
        / Real.sqrt ((XR : ℝ) + (YR : ℝ))) / ((XT * YT : ℕ) : ℝ) :=
    div_nonneg hsum (Nat.cast_nonneg _)
  linarith

/-- Helper: any second-neuron draw stays in bounds and differs from the
first neuron in at least one coordinate, on sheets of width and height
at least 2. -/
lemma adjacent_draw_spec {XR YR y1 x1 y2 x2 : ℕ} (hXR : 2 ≤ XR)
    (hYR : 2 ≤ YR) (hy1 : y1 < YR) (hx1 : x1 < XR)
    (hadj : adjacent_draw XR YR y1 x1 y2 x2) :
    y2 < YR ∧ x2 < XR ∧ ¬ (y1 = y2 ∧ x1 = x2) := by
  unfold adjacent_draw at hadj
  split_ifs at hadj <;> omega

/-- Helper: any squares draw keeps the second row and column in bounds
and distinct from the first, on sheets of width and height at least 2. -/
lemma squares_draw_spec {XR YR y1 x1 y2 x3 : ℕ} (hXR : 2 ≤ XR)
    (hYR : 2 ≤ YR) (hy1 : y1 < YR) (hx1 : x1 < XR)
    (hsq : squares_draw XR YR y1 x1 y2 x3) :
    y2 < YR ∧ y2 ≠ y1 ∧ x3 < XR ∧ x3 ≠ x1 := by
  unfold squares_draw at hsq
  split_ifs at hsq <;> omega

/-- Helper: the linear retinal index `y * XR + x` determines `(y, x)`
when `x < XR`. -/
lemma linear_index_inj {XR y x y' x' : ℕ} (hx : x < XR) (hx' : x' < XR)
    (heq : y * XR + x = y' * XR + x') : y = y' ∧ x = x' := by
  have heq' : x + y * XR = x' + y' * XR := by
    calc x + y * XR = y * XR + x := Nat.add_comm _ _
      _ = y' * XR + x' := heq
      _ = x' + y' * XR := Nat.add_comm _ _
  have hmod : (x + y * XR) % XR = (x' + y' * XR) % XR := by rw [heq']
  rw [Nat.add_mul_mod_self_right, Nat.add_mul_mod_self_right,
    Nat.mod_eq_of_lt hx, Nat.mod_eq_of_lt hx'] at hmod
  subst hmod
  have hXR : 0 < XR := Nat.pos_of_ne_zero (by omega)
  have hy : y * XR = y' * XR := Nat.add_left_cancel heq'
  exact ⟨Nat.eq_of_mul_eq_mul_right hXR hy, rfl⟩

/-- Helper: distinct in-bounds coordinates give distinct linear
indices. -/
lemma linear_index_ne {XR y x y' x' : ℕ} (hx : x < XR) (hx' : x' < XR)
    (hne : ¬ (y = y' ∧ x = x')) : y * XR + x ≠ y' * XR + x' :=
  fun heq => hne (linear_index_inj hx hx' heq)

/-- Helper: in-bounds coordinates give a linear index inside the
`XR * YR`-neuron sheet. -/
lemma linear_index_lt {XR YR y x : ℕ} (hy : y < YR) (hx : x < XR) :
    y * XR + x < XR * YR := by
  calc y * XR + x < y * XR + XR := by omega
    _ = (y + 1) * XR := by ring
    _ ≤ YR * XR := Nat.mul_le_mul_right _ (by omega)
    _ = XR * YR := Nat.mul_comm _ _

/-- Claim C7 (confirmed): on retinal sheets with `XR >= 2` and
`YR >= 2`, for every draw the source can make, the `pairs` policy
returns 2 indices, the `squares` policy 4, and the `2_pairs` policy 4,
each list without duplicates and with every index inside
`[0, XR*YR)`.  The draws appear as the coordinate parameters, bound by
the branch-structure predicates and, for `2_pairs`, by the exit
conditions of the two rejection-sampling while loops. -/
theorem C7_activation_policies_safe (XR YR : ℕ) (hXR : 2 ≤ XR) (hYR : 2 ≤ YR)
    (y1 x1 y2 x2 : ℕ) (hy1 : y1 < YR) (hx1 : x1 < XR)
    (hadj : adjacent_draw XR YR y1 x1 y2 x2)
    (sy1 sx1 sy2 sx3 : ℕ) (hsy1 : sy1 < YR) (hsx1 : sx1 < XR)
    (hsq : squares_draw XR YR sy1 sx1 sy2 sx3)
    (p1y1 p1x1 p1y2 p1x2 p2y1 p2x1 p2y2 p2x2 : ℕ)
    (hp1y : p1y1 < YR) (hp1x : p1x1 < XR)
    (hadj1 : adjacent_draw XR YR p1y1 p1x1 p1y2 p1x2)
    (hp2y : p2y1 < YR) (hp2x : p2x1 < XR)
    (hexit3 : p2y1 * XR + p2x1 ≠ p1y1 * XR + p1x1 ∧
      p2y1 * XR + p2x1 ≠ p1y2 * XR + p1x2)
    (hadj2 : adjacent_draw XR YR p2y1 p2x1 p2y2 p2x2)
    (hexit4 : p2y2 * XR + p2x2 ≠ p1y1 * XR + p1x1 ∧
      p2y2 * XR + p2x2 ≠ p1y2 * XR + p1x2) :
    ((retinal_neuron_pairs XR y1 x1 y2 x2).Nodup ∧
      ∀ n ∈ retinal_neuron_pairs XR y1 x1 y2 x2, n < XR * YR) ∧
    ((retinal_neuron_squares XR sy1 sx1 sy2 sx3).Nodup ∧
      ∀ n ∈ retinal_neuron_squares XR sy1 sx1 sy2 sx3, n < XR * YR) ∧
    ((retinal_neuron_2_pairs XR p1y1 p1x1 p1y2 p1x2 p2y1 p2x1 p2y2 p2x2).Nodup ∧
      ∀ n ∈ retinal_neuron_2_pairs XR p1y1 p1x1 p1y2 p1x2 p2y1 p2x1 p2y2 p2x2,
        n < XR * YR) := by
  obtain ⟨hy2, hx2, hne2⟩ := adjacent_draw_spec hXR hYR hy1 hx1 hadj
  obtain ⟨hsy2, hsy2ne, hsx3, hsx3ne⟩ := squares_draw_spec hXR hYR hsy1 hsx1 hsq
  obtain ⟨hq2, hqx2, hqne⟩ := adjacent_draw_spec hXR hYR hp1y hp1x hadj1
  obtain ⟨hr2, hrx2, hrne⟩ := adjacent_draw_spec hXR hYR hp2y hp2x hadj2
  refine ⟨⟨?_, ?_⟩, ⟨?_, ?_⟩, ⟨?_, ?_⟩⟩
  · unfold retinal_neuron_pairs
    refine List.nodup_cons.mpr ⟨?_, List.nodup_singleton _⟩
    simp only [List.mem_singleton]
    exact linear_index_ne hx1 hx2 hne2
  · intro n hn
    simp only [retinal_neuron_pairs, List.mem_cons, List.mem_singleton,
      List.not_mem_nil, or_false] at hn
    rcases hn with rfl | rfl
    · exact linear_index_lt hy1 hx1
    · exact linear_index_lt hy2 hx2
  · have d12 : sy1 * XR + sx1 ≠ sy2 * XR + sx1 :=
      linear_index_ne hsx1 hsx1 (by tauto)
    have d13 : sy1 * XR + sx1 ≠ sy1 * XR + sx3 :=
      linear_index_ne hsx1 hsx3 (by tauto)
    have d14 : sy1 * XR + sx1 ≠ sy2 * XR + sx3 :=
      linear_index_ne hsx1 hsx3 (by tauto)
    have d23 : sy2 * XR + sx1 ≠ sy1 * XR + sx3 :=
      linear_index_ne hsx1 hsx3 (by tauto)
    have d24 : sy2 * XR + sx1 ≠ sy2 * XR + sx3 :=
      linear_index_ne hsx1 hsx3 (by tauto)
    have d34 : sy1 * XR + sx3 ≠ sy2 * XR + sx3 :=
      linear_index_ne hsx3 hsx3 (by tauto)
    simp [retinal_neuron_squares, List.nodup_cons, List.mem_cons,
      List.mem_singleton, not_or, d12, d13, d14, d23, d24, d34]
  · intro n hn
    simp only [retinal_neuron_squares, List.mem_cons, List.mem_singleton,
      List.not_mem_nil, or_false] at hn
    rcases hn with rfl | rfl | rfl | rfl
    · exact linear_index_lt hsy1 hsx1
    · exact linear_index_lt hsy2 hsx1
    · exact linear_index_lt hsy1 hsx3
    · exact linear_index_lt hsy2 hsx3
  · have e12 : p1y1 * XR + p1x1 ≠ p1y2 * XR + p1x2 :=
      linear_index_ne hp1x hqx2 hqne
    have e13 : p1y1 * XR + p1x1 ≠ p2y1 * XR + p2x1 :=
      fun heq => hexit3.1 heq.symm
    have e14 : p1y1 * XR + p1x1 ≠ p2y2 * XR + p2x2 :=
      fun heq => hexit4.1 heq.symm
    have e23 : p1y2 * XR + p1x2 ≠ p2y1 * XR + p2x1 :=
      fun heq => hexit3.2 heq.symm
    have e24 : p1y2 * XR + p1x2 ≠ p2y2 * XR + p2x2 :=
      fun heq => hexit4.2 heq.symm
    have e34 : p2y1 * XR + p2x1 ≠ p2y2 * XR + p2x2 :=
      linear_index_ne hp2x hrx2 hrne
    simp [retinal_neuron_2_pairs, List.nodup_cons, List.mem_cons,
      List.mem_singleton, not_or, e12, e13, e14, e23, e24, e34]
  · intro n hn
    simp only [retinal_neuron_2_pairs, List.mem_cons, List.mem_singleton,
      List.not_mem_nil, or_false] at hn
    rcases hn with rfl | rfl | rfl | rfl
    · exact linear_index_lt hp1y hp1x
    · exact linear_index_lt hq2 hqx2
    · exact linear_index_lt hp2y hp2x
    · exact linear_index_lt hr2 hrx2

/-- Witness for C7: a 2x2 sheet with the concrete draws
pairs `(0,0) -> (0,1)`, squares anchored at `(0,0)`, and the two pairs
`(0,0)-(0,1)` and `(1,0)-(1,1)`. -/
theorem C7_activation_policies_safe_witness :
    (2 ≤ 2) ∧
      ((retinal_neuron_pairs 2 0 0 0 1).Nodup ∧
        ∀ n ∈ retinal_neuron_pairs 2 0 0 0 1, n < 2 * 2) ∧
      ((retinal_neuron_squares 2 0 0 1 1).Nodup ∧
        ∀ n ∈ retinal_neuron_squares 2 0 0 1 1, n < 2 * 2) ∧
      ((retinal_neuron_2_pairs 2 0 0 0 1 1 0 1 1).Nodup ∧
        ∀ n ∈ retinal_neuron_2_pairs 2 0 0 0 1 1 0 1 1, n < 2 * 2) := by
  refine ⟨by decide, ?_⟩
  exact C7_activation_policies_safe 2 2 (by decide) (by decide)
    0 0 0 1 (by decide) (by decide) (by decide)
    0 0 1 1 (by decide) (by decide) (by decide)
    0 0 0 1 1 0 1 1 (by decide) (by decide) (by decide)
    (by decide) (by decide) (by decide) (by decide) (by decide)

/-- Helper: on a 1x1 tectal grid the convolution term vanishes, because
only the centre coefficient of `tectal_modifiers` (which is 0) overlaps
the grid. -/
lemma convolve2d_same_one_one (H : ℕ → ℕ → ℝ) (beta gamma delta : ℝ) :
    convolve2d_same H 1 1 (tectal_modifiers beta gamma delta) 0 0 = 0 := by
  simp [convolve2d_same, kernel_at, tectal_modifiers]

/-- Helper: with `dt = 1`, `alpha = 0` and constant initial drive `c` on
a 1x1 grid, iteration `n` of the relaxation holds the value
`c * (n + 1)`. -/
lemma relax_iter_one_one (c beta gamma delta theta : ℝ) :
    ∀ n : ℕ,
      relax_iter (fun _ _ => c) 1 1 1 beta gamma delta 0 theta n 0 0
        = c * ((n : ℝ) + 1)
  | 0 => by simp [relax_iter]
  | n + 1 => by
      have ih := relax_iter_one_one c beta gamma delta theta n
      simp only [relax_iter, tectal_step, convolve2d_same_one_one, ih]
      push_cast
      ring

/-- Helper: the mean of a 1x1 grid is its single cell. -/
lemma grid_mean_one_one (H : ℕ → ℕ → ℝ) : grid_mean H 1 1 = H 0 0 := by
  simp [grid_mean]

/-- Helper: with a negative constant drive on a 1x1 grid (dt = 1,
alpha = 0), the convergence flag is false at every iteration. -/
lemma relax_one_one_not_converged (c beta gamma delta theta : ℝ) (hc : c < 0)
    (n : ℕ) :
    ¬ relax_converged_at (fun _ _ => c) 1 1 1 beta gamma delta 0 theta n := by
  unfold relax_converged_at
  rw [grid_mean_one_one, grid_mean_one_one, relax_iter_one_one,
    relax_iter_one_one]
  unfold convergence
  intro habs
  have hnp : (0 : ℝ) < (n : ℝ) + 1 := by positivity
  have hneg : c * ((n : ℝ) + 1) < 0 := mul_neg_of_neg_of_pos hc hnp
  have habs0 : (0 : ℝ) ≤
      |c * (((n : ℝ) + 1) + 1) - c * ((n : ℝ) + 1)| := abs_nonneg _
  push_cast at habs
  nlinarith

/-- Claim C2 (corrected): the inner relaxation loop of
`tectal_interactions` has no maximum-iteration guard.  With
`verbose=False` its only exit is the convergence test, and for any
negative constant initial drive on a 1x1 tectal sheet (dt = 1,
alpha = 0, any beta, gamma, delta, theta) that test is false at every
iteration: the loop runs unboundedly and never produces a result, let
alone a distinct non-convergence failure. -/
theorem C2_relaxation_unguarded (c beta gamma delta theta : ℝ) (hc : c < 0)
    (n : ℕ) :
    ¬ relax_converged_at (fun _ _ => c) 1 1 1 beta gamma delta 0 theta n :=
  relax_one_one_not_converged c beta gamma delta theta hc n

/-- Witness for C2 at the concrete drive -1 and iteration 0. -/
theorem C2_relaxation_unguarded_witness :
    ((-1 : ℝ) < 0) ∧
      ¬ relax_converged_at (fun _ _ => (-1 : ℝ)) 1 1 1 0 0 0 0 0 0 :=
  ⟨by norm_num, C2_relaxation_unguarded (-1) 0 0 0 0 (by norm_num) 0⟩

/-- Counterexample for C2 as stated: at the concrete input
`H_grid_initial = [[-1]]` with dt = 1, beta = gamma = delta = 0,
alpha = 0, theta = 0, the relaxation loop never converges, so its
iteration count is not bounded and no non-convergence failure is ever
surfaced. -/
theorem C2_counterexample :
    relax_never_converges (fun _ _ => (-1 : ℝ)) 1 1 1 0 0 0 0 0 :=
  fun n => relax_one_one_not_converged (-1) 0 0 0 0 (by norm_num) n

/-- Helper: 1 < sqrt 2 < 2. -/
lemma sqrt_two_bounds : (1 : ℝ) < Real.sqrt 2 ∧ Real.sqrt 2 < 2 := by
  have hsq : Real.sqrt 2 ^ 2 = 2 := Real.sq_sqrt (by norm_num)
  have hnn : (0 : ℝ) ≤ Real.sqrt 2 := Real.sqrt_nonneg 2
  constructor
  · nlinarith
  · nlinarith

/-- Helper: the raw graded distance between tectal neuron 0 and retinal
neuron 1 on 2x2 sheets is 1/2 (normalised positions (0, 0) and
(0, 1/2)). -/
lemma graded_dist_2211 : graded_dist 2 2 2 2 0 1 = 1 / 2 := by
  unfold graded_dist
  norm_num
  rw [show (4 : ℝ) = 2 ^ 2 by norm_num,
    Real.sqrt_sq (by norm_num : (0 : ℝ) ≤ 2)]
  norm_num

/-- Claim C3 (code_bug): the graded polarity marking of the source divides
the raw distance by `INV_SQRT_2 = 1/sqrt(2)` — multiplying it by
sqrt(2) instead of normalising by the claimed maximum separation
sqrt(2).  At the failing input (2x2 sheets, all-ones `s`, tectal neuron
0, retinal neuron 1, raw distance 1/2) the code leaves the synapse at 1
because `(1/2) * sqrt(2) = 0.707... >= 0.5`, whereas the claimed rule
has normalised distance `(1/2) / sqrt(2) = 0.353... < 0.5` and rescales
the synapse to `5 - 2 * sqrt(2) = 2.17...`, a different value. -/
theorem C3_graded_normalisation_bug :
    graded_polarity_markers (fun _ _ => 1) 2 2 2 2 0 1 = 1 ∧
      graded_polarity_markers_spec (fun _ _ => 1) 2 2 2 2 0 1
        = 5 - 2 * Real.sqrt 2 ∧
      (5 - 2 * Real.sqrt 2 : ℝ) ≠ 1 := by
  obtain ⟨h1lt, hlt2⟩ := sqrt_two_bounds
  have hpos : (0 : ℝ) < Real.sqrt 2 := lt_trans one_pos h1lt
  have hne : Real.sqrt 2 ≠ 0 := ne_of_gt hpos
  have hmulself : Real.sqrt 2 * Real.sqrt 2 = 2 :=
    Real.mul_self_sqrt (by norm_num)
  refine ⟨?_, ?_, ?_⟩
  · unfold graded_polarity_markers
    rw [if_pos (by norm_num : (0 : ℕ) < 2 * 2 ∧ (1 : ℕ) < 2 * 2)]
    rw [graded_dist_2211]
    rw [if_neg ?_]
    · intro hcond
      have heq : (1 / 2 : ℝ) / (1 / Real.sqrt 2) = Real.sqrt 2 / 2 := by
        field_simp
      rw [heq] at hcond
      norm_num at hcond
      linarith
  · unfold graded_polarity_markers_spec
    rw [if_pos (by norm_num : (0 : ℕ) < 2 * 2 ∧ (1 : ℕ) < 2 * 2)]
    rw [graded_dist_2211]
    rw [if_pos ?_]
    · have heq : (1 / 2 : ℝ) / Real.sqrt 2 = 1 / (2 * Real.sqrt 2) := by
        ring
      rw [heq]
      have h4 : (1 : ℝ) / (2 * Real.sqrt 2) = Real.sqrt 2 / 4 := by
        rw [div_eq_div_iff (by positivity) (by norm_num)]
        nlinarith
      rw [h4]
      ring
    · have heq : (1 / 2 : ℝ) / Real.sqrt 2 = 1 / (2 * Real.sqrt 2) := by
        ring
      rw [heq]
      rw [div_lt_iff (by positivity)]
      nlinarith
  · intro habs
    nlinarith
